import Mathlib

/-!
Shallow embedding of the LoCalendar licensing core.

Client side (from `src/store/licenseStore.ts`, `src/store/useInitializeStore.ts`,
`src/App.tsx`, `src/components/LicensePrompt.tsx`): the Zustand license store —
`verifyLicense`, `loadSavedLicense`, `clearLicense`, the feature gates
`canUsePrintExport` / `canUseAllFeatures`, and the `localStorage` record under
`localendar_license`.

The Tauri `verify_license` command is modelled as an explicit parameter
`inv : String → Option LicenseStatus` (`none` = the command threw); wall-clock
time is an explicit `now : Nat` in milliseconds, and `localStorage` is a field
of the state.  A present-but-unparseable stored record is modelled as
`some none` (JSON.parse throws), a parseable one as `some (some record)`.

Issuer side (the Rust license server and the Rust verification engine are not
present in the repository's source tree; only their READMEs are): the token
codec, the verification engine and the webhook ingestor are modelled from the
spec, with doc comments saying so.
-/

/-- `LicensePayload` from `src/store/licenseStore.ts`. -/
structure LicensePayload where
  email : String
  product_id : String
  plan : String
  issued_at : String
  expires_at : Option String
deriving DecidableEq

/-- `LicenseStatus` from `src/store/licenseStore.ts`. -/
structure LicenseStatus where
  valid : Bool
  payload : Option LicensePayload
  expires_at : Option String
  grace_period : Bool
  error : Option String
deriving DecidableEq

/-- The record `verifyLicense` writes to `localStorage` under
`localendar_license`: `{ token, status, verified_at }`; `verified_at` is modelled
as milliseconds since the epoch. -/
structure SavedLicense where
  token : String
  status : LicenseStatus
  verified_at : Nat
deriving DecidableEq

/-- The observable state of the license store plus the `localStorage` slot.
`storage = none`: no saved record; `storage = some none`: a saved record exists
but `JSON.parse` throws on it; `storage = some (some r)`: a parseable record. -/
structure LicenseState where
  license : Option LicenseStatus
  isChecking : Bool
  showLicensePrompt : Bool
  storage : Option (Option SavedLicense)
deriving DecidableEq

/-- The status built in the `catch` branch of `verifyLicense`. -/
def errorStatus : LicenseStatus :=
  { valid := false, payload := none, expires_at := none, grace_period := false,
    error := some "Failed to verify license" }

/-- `verifyLicense` from `src/store/licenseStore.ts` (lines 134-162).
`inv` is the Tauri `invoke('verify_license')` call; `none` means it threw.
Returns the post-state and the returned `LicenseStatus`. -/
def verifyLicense (inv : String → Option LicenseStatus) (now : Nat)
    (token : String) (s : LicenseState) : LicenseState × LicenseStatus :=
  match inv token with
  | some status =>
      let storage :=
        if status.valid then some (some ⟨token, status, now⟩) else s.storage
      ({ license := some status, isChecking := false, showLicensePrompt := false,
         storage := storage }, status)
  | none =>
      ({ s with license := some errorStatus, isChecking := false }, errorStatus)

/-- `clearLicense` from `src/store/licenseStore.ts` (lines 168-171):
removes the `localStorage` record and sets `license: null`,
`showLicensePrompt: true`. -/
def clearLicense (s : LicenseState) : LicenseState :=
  { license := none, isChecking := s.isChecking, showLicensePrompt := true,
    storage := none }

/-- One day in milliseconds, as in
`(now.getTime() - verifiedAt.getTime()) / (1000 * 60 * 60 * 24)`. -/
def msPerDay : Nat := 1000 * 60 * 60 * 24

/-- `loadSavedLicense` from `src/store/licenseStore.ts` (lines 173-195).
No saved record: show the prompt.  Unparseable record: the `catch` branch only
logs, so the state is unchanged.  Parseable record: if strictly more than 7
days old, re-run `verifyLicense` on the saved token; otherwise restore the
saved status as-is. -/
def loadSavedLicense (inv : String → Option LicenseStatus) (now : Nat)
    (s : LicenseState) : LicenseState :=
  match s.storage with
  | none => { s with showLicensePrompt := true }
  | some none => s
  | some (some data) =>
      if 7 * msPerDay < now - data.verified_at then
        (verifyLicense inv now data.token s).1
      else
        { s with license := some data.status }

/-- `canUsePrintExport` from `src/store/licenseStore.ts` (lines 199-205):
the body is `return true` (the gating line is commented out for the MVP). -/
def canUsePrintExport (_license : Option LicenseStatus) : Bool :=
  true

/-- `canUseAllFeatures` from `src/store/licenseStore.ts` (lines 207-209):
`license?.valid ?? false`. -/
def canUseAllFeatures (license : Option LicenseStatus) : Bool :=
  match license with
  | some st => st.valid
  | none => false

/-- Modelled from the spec: the base64url alphabet (`A-Z a-z 0-9 - _`) used by
the TokenCodec, whose Rust implementation (the license server and
`src-tauri/src/licensing.rs`) is not in the source tree — only its README is.
Maps a sextet to its character. -/
def b64Char (n : Nat) : Char :=
  if n < 26 then Char.ofNat (65 + n)
  else if n < 52 then Char.ofNat (97 + (n - 26))
  else if n < 62 then Char.ofNat (48 + (n - 52))
  else if n = 62 then '-' else '_'

/-- Modelled from the spec: inverse of `b64Char`; `none` for a character
outside the base64url alphabet. -/
def b64Val (c : Char) : Option Nat :=
  if 'A' ≤ c ∧ c ≤ 'Z' then some (c.toNat - 65)
  else if 'a' ≤ c ∧ c ≤ 'z' then some (c.toNat - 97 + 26)
  else if '0' ≤ c ∧ c ≤ '9' then some (c.toNat - 48 + 52)
  else if c = '-' then some 62
  else if c = '_' then some 63
  else none

/-- Modelled from the spec: unpadded base64url encoding of a byte list
(`base64url(...)` in the token wire format; the Rust codec is absent from the
source tree). -/
def b64EncodeBytes : List Nat → List Char
  | [] => []
  | [b1] => [b64Char (b1 / 4), b64Char (b1 % 4 * 16)]
  | [b1, b2] =>
      [b64Char (b1 / 4), b64Char (b1 % 4 * 16 + b2 / 16), b64Char (b2 % 16 * 4)]
  | b1 :: b2 :: b3 :: rest =>
      b64Char (b1 / 4) :: b64Char (b1 % 4 * 16 + b2 / 16) ::
        b64Char (b2 % 16 * 4 + b3 / 64) :: b64Char (b3 % 64) ::
          b64EncodeBytes rest

/-- Modelled from the spec: base64url decoding; fails on a character outside
the alphabet or on an impossible length (4k+1). -/
def b64DecodeChars : List Char → Option (List Nat)
  | [] => some []
  | [_] => none
  | [c1, c2] => do
      let s1 ← b64Val c1
      let s2 ← b64Val c2
      pure [s1 * 4 + s2 / 16]
  | [c1, c2, c3] => do
      let s1 ← b64Val c1
      let s2 ← b64Val c2
      let s3 ← b64Val c3
      pure [s1 * 4 + s2 / 16, s2 % 16 * 16 + s3 / 4]
  | c1 :: c2 :: c3 :: c4 :: rest => do
      let s1 ← b64Val c1
      let s2 ← b64Val c2
      let s3 ← b64Val c3
      let s4 ← b64Val c4
      let r ← b64DecodeChars rest
      pure ((s1 * 4 + s2 / 16) :: (s2 % 16 * 16 + s3 / 4) :: (s3 % 4 * 64 + s4) :: r)

/-- Modelled from the spec: `decode` "splits on the delimiter exactly once;
fails ... if the delimiter is absent, duplicated in a way that breaks the split
contract". Splits a character list at its unique `.`, failing when there is no
`.` or more than one. -/
def splitDot : List Char → Option (List Char × List Char)
  | [] => none
  | c :: rest =>
      if c = '.' then
        if rest.contains '.' then none else some ([], rest)
      else
        match splitDot rest with
        | some (l, r) => some (c :: l, r)
        | none => none

/-- Modelled from the spec: TokenCodec `encode` — wire format
`base64url(payload-bytes) + "." + base64url(signature)` (the Rust codec is
absent from the source tree). -/
def tokenEncode (payloadBytes sig : List Nat) : String :=
  String.mk (b64EncodeBytes payloadBytes ++ '.' :: b64EncodeBytes sig)

/-- Modelled from the spec: TokenCodec `decode` — split on the delimiter
exactly once, base64url-decode each half; `none` models the `Malformed`
outcome. -/
def tokenDecode (token : String) : Option (List Nat × List Nat) :=
  match splitDot token.data with
  | none => none
  | some (l, r) =>
      match b64DecodeChars l, b64DecodeChars r with
      | some pb, some sb => some (pb, sb)
      | _, _ => none

/-- UTF-8 bytes of one character (for the canonical JSON serialization; the
last branch reduces the lead value modulo 64, which is the identity on every
valid codepoint). -/
def charBytes (c : Char) : List Nat :=
  if c.toNat < 128 then [c.toNat]
  else if c.toNat < 2048 then [192 + c.toNat / 64, 128 + c.toNat % 64]
  else if c.toNat < 65536 then
    [224 + c.toNat / 4096, 128 + c.toNat / 64 % 64, 128 + c.toNat % 64]
  else
    [240 + c.toNat / 262144 % 64, 128 + c.toNat / 4096 % 64,
      128 + c.toNat / 64 % 64, 128 + c.toNat % 64]

/-- UTF-8 bytes of a character list. -/
def strBytes : List Char → List Nat
  | [] => []
  | c :: cs => charBytes c ++ strBytes cs

/-- Modelled from the spec: the canonical JSON of a `LicensePayload` — the
payload JSON shape with stable key order
(`email`, `product_id`, `plan`, `issued_at`, `expires_at`), `null` for a
missing expiry (the Rust serializer of the license server is absent from the
source tree). -/
def canonicalJsonStr (p : LicensePayload) : String :=
  "\x7b\"email\":\"" ++ p.email ++ "\",\"product_id\":\"" ++ p.product_id ++
    "\",\"plan\":\"" ++ p.plan ++ "\",\"issued_at\":\"" ++ p.issued_at ++
      "\",\"expires_at\":" ++
        (match p.expires_at with
         | some e => "\"" ++ e ++ "\""
         | none => "null") ++ "\x7d"

/-- Modelled from the spec: the canonical payload bytes that get signed and
base64url-encoded. -/
def canonicalJson (p : LicensePayload) : List Nat :=
  strBytes (canonicalJsonStr p).data

/-- Modelled from the spec: `encode(payload, signature)` of the TokenCodec at
the payload level. -/
def encodeToken (p : LicensePayload) (sig : List Nat) : String :=
  tokenEncode (canonicalJson p) sig

/-- `VerificationOutcome` from the spec's data model (the Rust verification
engine is absent from the source tree). -/
inductive VerificationOutcome where
  | Valid (payload : LicensePayload)
  | Expired (payload : LicensePayload)
  | InvalidSignature
  | Malformed
  | WrongProduct
deriving DecidableEq

/-- Modelled from the spec: `VerificationEngine.verify` (the Rust
implementation `src-tauri/src/licensing.rs` is absent from the source tree).
`parsePayload` stands for JSON-parsing the decoded payload bytes, `sigOk` for
the Ed25519 check against the embedded public key over the canonical
re-serialization, `timeOf` for RFC3339 timestamp parsing.  Order per the spec:
decode, then signature, then product, then expiry (inclusive boundary:
`expiresAt = now` is `Expired`). -/
def verify (parsePayload : List Nat → Option LicensePayload)
    (sigOk : List Nat → List Nat → Bool) (expectedProduct : String)
    (timeOf : String → Nat) (now : Nat) (token : String) : VerificationOutcome :=
  match tokenDecode token with
  | none => .Malformed
  | some (pb, sb) =>
      match parsePayload pb with
      | none => .Malformed
      | some p =>
          if sigOk (canonicalJson p) sb then
            if p.product_id ≠ expectedProduct then .WrongProduct
            else
              match p.expires_at with
              | some exp => if timeOf exp ≤ now then .Expired p else .Valid p
              | none => .Valid p
          else .InvalidSignature

/-- Modelled from the spec: `IssuanceService.issue` (the Rust license server is
absent from the source tree) — builds a payload with `issuedAt = now` and
returns the encoded signed token; `sign` stands for the Ed25519 signature with
the private key, `fmt` for RFC3339 formatting of `now`. -/
def issue (sign : List Nat → List Nat) (fmt : Nat → String)
    (identity productId plan : String) (now : Nat) : String :=
  let p : LicensePayload :=
    { email := identity, product_id := productId, plan := plan,
      issued_at := fmt now, expires_at := none }
  encodeToken p (sign (canonicalJson p))

/-- Lookup in the deduplication set of processed sale ids. -/
def lookupSale : List (String × String) → String → Option String
  | [], _ => none
  | (k, v) :: rest, saleId => if k = saleId then some v else lookupSale rest saleId

/-- Modelled from the spec: the WebhookIngestor's only mutable state, the
deduplication set of processed `saleId`s with the token issued for each (the
Rust license server is absent from the source tree). -/
structure IngestorState where
  processed : List (String × String)
deriving DecidableEq

/-- Modelled from the spec: `handlePurchaseEvent(saleId, identity)` (the Rust
license server is absent from the source tree) — deduplicates by `saleId`,
returning the previously issued token on a repeated delivery instead of
re-minting with a new `issuedAt`. -/
def handlePurchaseEvent (sign : List Nat → List Nat) (fmt : Nat → String)
    (productId plan : String) (now : Nat) (saleId identity : String)
    (st : IngestorState) : IngestorState × String :=
  match lookupSale st.processed saleId with
  | some tok => (st, tok)
  | none =>
      let tok := issue sign fmt identity productId plan now
      (⟨(saleId, tok) :: st.processed⟩, tok)

theorem b64Val_b64Char (n : Nat) (h : n < 64) : b64Val (b64Char n) = some n := by
  interval_cases n <;> decide

theorem b64Char_ne_dot (n : Nat) (h : n < 64) : b64Char n ≠ '.' := by
  interval_cases n <;> decide

theorem b64EncodeBytes_no_dot (bs : List Nat) (h : ∀ b ∈ bs, b < 256) :
    '.' ∉ b64EncodeBytes bs := by
  induction bs using b64EncodeBytes.induct with
  | case1 => simp [b64EncodeBytes]
  | case2 b1 =>
      have hb1 : b1 < 256 := h b1 (by simp)
      simp only [b64EncodeBytes, List.mem_cons, List.not_mem_nil, or_false]
      push_neg
      exact ⟨(b64Char_ne_dot _ (by omega)).symm, (b64Char_ne_dot _ (by omega)).symm⟩
  | case3 b1 b2 =>
      have hb1 : b1 < 256 := h b1 (by simp)
      have hb2 : b2 < 256 := h b2 (by simp)
      simp only [b64EncodeBytes, List.mem_cons, List.not_mem_nil, or_false]
      push_neg
      exact ⟨(b64Char_ne_dot _ (by omega)).symm, (b64Char_ne_dot _ (by omega)).symm,
        (b64Char_ne_dot _ (by omega)).symm⟩
  | case4 b1 b2 b3 rest ih =>
      have hb1 : b1 < 256 := h b1 (by simp)
      have hb2 : b2 < 256 := h b2 (by simp)
      have hb3 : b3 < 256 := h b3 (by simp)
      have hrest : ∀ b ∈ rest, b < 256 := fun b hb => h b (by simp [hb])
      simp only [b64EncodeBytes, List.mem_cons]
      push_neg
      exact ⟨(b64Char_ne_dot _ (by omega)).symm, (b64Char_ne_dot _ (by omega)).symm,
        (b64Char_ne_dot _ (by omega)).symm, (b64Char_ne_dot _ (by omega)).symm,
        ih hrest⟩

theorem b64_roundtrip (bs : List Nat) (h : ∀ b ∈ bs, b < 256) :
    b64DecodeChars (b64EncodeBytes bs) = some bs := by
  induction bs using b64EncodeBytes.induct with
  | case1 => rfl
  | case2 b1 =>
      have hb1 : b1 < 256 := h b1 (by simp)
      simp [b64EncodeBytes, b64DecodeChars,
        b64Val_b64Char (b1 / 4) (by omega),
        b64Val_b64Char (b1 % 4 * 16) (by omega)]
      omega
  | case3 b1 b2 =>
      have hb1 : b1 < 256 := h b1 (by simp)
      have hb2 : b2 < 256 := h b2 (by simp)
      simp [b64EncodeBytes, b64DecodeChars,
        b64Val_b64Char (b1 / 4) (by omega),
        b64Val_b64Char (b1 % 4 * 16 + b2 / 16) (by omega),
        b64Val_b64Char (b2 % 16 * 4) (by omega)]
      constructor <;> omega
  | case4 b1 b2 b3 rest ih =>
      have hb1 : b1 < 256 := h b1 (by simp)
      have hb2 : b2 < 256 := h b2 (by simp)
      have hb3 : b3 < 256 := h b3 (by simp)
      have hrest : ∀ b ∈ rest, b < 256 := fun b hb => h b (by simp [hb])
      simp [b64EncodeBytes, b64DecodeChars,
        b64Val_b64Char (b1 / 4) (by omega),
        b64Val_b64Char (b1 % 4 * 16 + b2 / 16) (by omega),
        b64Val_b64Char (b2 % 16 * 4 + b3 / 64) (by omega),
        b64Val_b64Char (b3 % 64) (by omega), ih hrest]
      refine ⟨by omega, by omega, by omega⟩

theorem splitDot_append (xs ys : List Char) (hx : '.' ∉ xs) (hy : '.' ∉ ys) :
    splitDot (xs ++ '.' :: ys) = some (xs, ys) := by
  induction xs with
  | nil => simp [splitDot, hy]
  | cons c cs ih =>
      have hc : c ≠ '.' := fun hcd => hx (by simp [hcd])
      have hcs : '.' ∉ cs := fun hm => hx (by simp [hm])
      simp only [List.cons_append, splitDot, if_neg hc, List.append_eq, ih hcs]

theorem charBytes_lt (c : Char) : ∀ b ∈ charBytes c, b < 256 := by
  have hv : c.toNat < 1114112 := by
    have h := c.valid
    simp only [UInt32.isValidChar, Nat.isValidChar] at h
    rcases h with h | ⟨_, h2⟩
    · exact Nat.lt_trans h (by norm_num)
    · exact h2
  intro b hb
  unfold charBytes at hb
  split at hb
  · simp_all; omega
  · split at hb
    · simp_all; omega
    · split at hb <;> simp_all <;> omega

theorem strBytes_lt (cs : List Char) : ∀ b ∈ strBytes cs, b < 256 := by
  induction cs with
  | nil => simp [strBytes]
  | cons c cs ih =>
      intro b hb
      simp only [strBytes, List.mem_append] at hb
      rcases hb with hb | hb
      · exact charBytes_lt c b hb
      · exact ih b hb

theorem canonicalJson_lt (p : LicensePayload) : ∀ b ∈ canonicalJson p, b < 256 :=
  strBytes_lt _

theorem tokenDecode_tokenEncode (pb sb : List Nat) (hp : ∀ b ∈ pb, b < 256)
    (hs : ∀ b ∈ sb, b < 256) : tokenDecode (tokenEncode pb sb) = some (pb, sb) := by
  unfold tokenEncode tokenDecode
  show (match splitDot (b64EncodeBytes pb ++ '.' :: b64EncodeBytes sb) with
    | none => none
    | some (l, r) =>
        match b64DecodeChars l, b64DecodeChars r with
        | some pb, some sb => some (pb, sb)
        | _, _ => none) = some (pb, sb)
  rw [splitDot_append _ _ (b64EncodeBytes_no_dot pb hp) (b64EncodeBytes_no_dot sb hs)]
  simp [b64_roundtrip pb hp, b64_roundtrip sb hs]

/-- C1 counterexample: `canUsePrintExport` returns `true` even when no license
is cached at all (`license = null`), so it does not return `true` only when the
cached `LicenseStatus` is valid. -/
theorem c1_gate_counterexample :
    canUsePrintExport none = true ∧
      ¬ ∃ st : LicenseStatus, (none : Option LicenseStatus) = some st ∧
        st.valid = true := by
  refine ⟨rfl, ?_⟩
  rintro ⟨st, h, -⟩
  cases h

/-- C1 (amended): in the MVP the print/export gate is disabled —
`canUsePrintExport` returns `true` for every cached license state (the gating
line is commented out); the companion `canUseAllFeatures` returns `true`
exactly when the cached `LicenseStatus` is valid. -/
theorem c1_gate_amended (l : Option LicenseStatus) :
    canUsePrintExport l = true ∧
      (canUseAllFeatures l = true ↔ ∃ st, l = some st ∧ st.valid = true) := by
  refine ⟨rfl, ?_⟩
  cases l with
  | none => simp [canUseAllFeatures]
  | some st => simp [canUseAllFeatures]

/-- C2 counterexample: a cached record 8 days old (beyond the 7-day window)
whose token still verifies (authentic, `expires_at` in the future) does not get
effective status `Expired`: `loadSavedLicense` re-runs `verifyLicense`, the
offline-capable `verify_license` command succeeds without any issuer round
trip, and the effective status is valid again; and when the re-check throws,
the effective status is the generic `errorStatus`
(`error = "Failed to verify license"`), not an `Expired` one. -/
theorem c2_grace_counterexample :
    (loadSavedLicense
        (fun _ => some ⟨true, none, some "2099-01-01T00:00:00Z", false, none⟩)
        (8 * msPerDay)
        ⟨none, false, false,
          some (some ⟨"tok",
            ⟨true, none, some "2099-01-01T00:00:00Z", false, none⟩, 0⟩)⟩).license =
      some ⟨true, none, some "2099-01-01T00:00:00Z", false, none⟩ ∧
    (⟨true, none, some "2099-01-01T00:00:00Z", false, none⟩ : LicenseStatus).valid
      = true ∧
    (loadSavedLicense (fun _ => none) (8 * msPerDay)
        ⟨none, false, false,
          some (some ⟨"tok",
            ⟨true, none, some "2099-01-01T00:00:00Z", false, none⟩, 0⟩)⟩).license =
      some errorStatus := by
  refine ⟨rfl, rfl, rfl⟩

/-- C2 (amended): a parseable cached record at most 7 days old is restored
as-is (a cached valid outcome at 6 days yields effective status valid); a
record strictly older than 7 days is not expired by staleness — its stored
status is discarded and `verifyLicense` is re-run on the saved token, so the
effective status is whatever that re-verification produces. -/
theorem c2_grace_amended (inv : String → Option LicenseStatus) (now : Nat)
    (s : LicenseState) (data : SavedLicense)
    (hst : s.storage = some (some data)) :
    (now - data.verified_at ≤ 7 * msPerDay →
      loadSavedLicense inv now s = { s with license := some data.status }) ∧
    (7 * msPerDay < now - data.verified_at →
      loadSavedLicense inv now s = (verifyLicense inv now data.token s).1) := by
  constructor
  · intro h
    have hc : ¬ 7 * msPerDay < now - data.verified_at := by omega
    simp [loadSavedLicense, hst, hc]
  · intro h
    simp [loadSavedLicense, hst, h]

theorem c2_grace_amended_witness :
    loadSavedLicense (fun _ => some errorStatus) (6 * msPerDay)
        ⟨none, false, false,
          some (some ⟨"tok", ⟨true, none, none, false, none⟩, 0⟩)⟩ =
      { license := some ⟨true, none, none, false, none⟩, isChecking := false,
        showLicensePrompt := false,
        storage := some (some ⟨"tok", ⟨true, none, none, false, none⟩, 0⟩) } :=
  (c2_grace_amended (fun _ => some errorStatus) (6 * msPerDay) _ _ rfl).1
    (by decide)

/-- C3 counterexample: a verification attempt reaching a definitive `Invalid`
outcome (the command resolves with `valid = false`) does not overwrite the
cached record — the previously saved (valid) record is left in place, because
`verifyLicense` writes `localStorage` only under `if (status.valid)`. -/
theorem c3_cache_write_counterexample :
    (verifyLicense
        (fun _ => some ⟨false, none, none, false, some "Invalid license signature"⟩)
        (8 * msPerDay) "newtoken"
        ⟨none, false, false,
          some (some ⟨"oldtoken", ⟨true, none, none, false, none⟩, 0⟩)⟩).1.storage =
      some (some ⟨"oldtoken", ⟨true, none, none, false, none⟩, 0⟩) ∧
    (⟨false, none, none, false, some "Invalid license signature"⟩ : LicenseStatus) ≠
      (⟨true, none, none, false, none⟩ : LicenseStatus) := by
  exact ⟨rfl, by decide⟩

/-- C3 (amended): the cached record is overwritten — atomically, as one whole
`{ token, status, verified_at }` value — only when the definitive outcome is
valid; a definitive non-valid outcome (and a thrown re-check) leaves the stored
record untouched; and the record is removed only by the explicit
`clearLicense` action: neither `verifyLicense` nor `loadSavedLicense` ever
empties the slot. -/
theorem c3_cache_write_amended (inv : String → Option LicenseStatus) (now : Nat)
    (token : String) (s : LicenseState) (st : LicenseStatus)
    (h : inv token = some st) :
    ((verifyLicense inv now token s).1.storage =
      if st.valid then some (some ⟨token, st, now⟩) else s.storage) ∧
    ((clearLicense s).storage = none ∧ (clearLicense s).license = none ∧
      (clearLicense s).showLicensePrompt = true) ∧
    (s.storage ≠ none → (verifyLicense inv now token s).1.storage ≠ none) ∧
    (s.storage ≠ none → (loadSavedLicense inv now s).storage ≠ none) := by
  refine ⟨by simp [verifyLicense, h], ⟨rfl, rfl, rfl⟩, ?_, ?_⟩
  · intro hs
    simp only [verifyLicense, h]
    split <;> simp [hs]
  · intro hs
    unfold loadSavedLicense
    rcases hstore : s.storage with - | hd
    · exact absurd hstore hs
    · rcases hd with - | data
      · simp [hstore]
      · simp only
        split
        · rcases hinv : inv data.token with - | st2
          · simp [verifyLicense, hinv]
            exact hs
          · simp only [verifyLicense, hinv]
            split <;> simp [hs]
        · simp

theorem c3_cache_write_amended_witness :
    ((verifyLicense (fun _ => some errorStatus) 0 "tok"
        ⟨none, false, false, none⟩).1.storage =
      if errorStatus.valid then some (some ⟨"tok", errorStatus, 0⟩) else none) ∧
    ((clearLicense ⟨none, false, false, none⟩).storage = none ∧
      (clearLicense ⟨none, false, false, none⟩).license = none ∧
      (clearLicense ⟨none, false, false, none⟩).showLicensePrompt = true) ∧
    ((none : Option (Option SavedLicense)) ≠ none →
      (verifyLicense (fun _ => some errorStatus) 0 "tok"
        ⟨none, false, false, none⟩).1.storage ≠ none) ∧
    ((none : Option (Option SavedLicense)) ≠ none →
      (loadSavedLicense (fun _ => some errorStatus) 0
        ⟨none, false, false, none⟩).storage ≠ none) :=
  c3_cache_write_amended (fun _ => some errorStatus) 0 "tok"
    ⟨none, false, false, none⟩ errorStatus rfl

/-- C4 counterexample: when the re-check fails (the `verify_license` command
throws, e.g. for a network/transport reason), `verifyLicense` denies
entitlement outright: the resulting status has `valid = false` and
`grace_period = false` — no fall-through to an offline+grace evaluation, and no
`NetworkUnavailable`-style outcome kept apart from a definitive denial (only a
generic error string). -/
theorem c4_network_counterexample :
    (verifyLicense (fun _ => none) 0 "tok" ⟨none, false, false, none⟩).2.valid
      = false ∧
    (verifyLicense (fun _ => none) 0 "tok"
      ⟨none, false, false, none⟩).2.grace_period = false ∧
    (verifyLicense (fun _ => none) 0 "tok" ⟨none, false, false, none⟩).1.license
      = some errorStatus := by
  exact ⟨rfl, rfl, rfl⟩

/-- C4 (amended): when the `verify_license` command throws, `verifyLicense`
sets and returns the fixed catch-all `errorStatus`
(`valid = false`, `grace_period = false`,
`error = "Failed to verify license"`), denying entitlement rather than falling
through to an offline+grace evaluation; the failure is distinguishable from a
backend outcome only through that error string, and the cached record is left
unchanged. -/
theorem c4_network_amended (inv : String → Option LicenseStatus) (now : Nat)
    (token : String) (s : LicenseState) (h : inv token = none) :
    (verifyLicense inv now token s).2 = errorStatus ∧
    (verifyLicense inv now token s).1.license = some errorStatus ∧
    (verifyLicense inv now token s).1.storage = s.storage ∧
    (verifyLicense inv now token s).1.showLicensePrompt = s.showLicensePrompt ∧
    errorStatus.valid = false ∧ errorStatus.grace_period = false ∧
    errorStatus.error = some "Failed to verify license" := by
  simp [verifyLicense, h, errorStatus]

theorem c4_network_amended_witness :
    (verifyLicense (fun _ => none) 5 "abc"
        ⟨some errorStatus, false, true, none⟩).2 = errorStatus ∧
    (verifyLicense (fun _ => none) 5 "abc"
        ⟨some errorStatus, false, true, none⟩).1.license = some errorStatus ∧
    (verifyLicense (fun _ => none) 5 "abc"
        ⟨some errorStatus, false, true, none⟩).1.storage =
      (⟨some errorStatus, false, true, none⟩ : LicenseState).storage ∧
    (verifyLicense (fun _ => none) 5 "abc"
        ⟨some errorStatus, false, true, none⟩).1.showLicensePrompt =
      (⟨some errorStatus, false, true, none⟩ : LicenseState).showLicensePrompt ∧
    errorStatus.valid = false ∧ errorStatus.grace_period = false ∧
    errorStatus.error = some "Failed to verify license" :=
  c4_network_amended (fun _ => none) 5 "abc" ⟨some errorStatus, false, true, none⟩
    rfl

/-- C5 counterexample: with a cached record 6 days old, application start
(`useInitializeStore` → `loadSavedLicense`) restores the remembered outcome
as the baseline without running any verification of the saved token: even when
the `verify_license` command would report the token invalid, the effective
status is the remembered valid one. -/
theorem c5_startup_counterexample :
    (loadSavedLicense
        (fun _ => some ⟨false, none, none, false, some "Invalid license signature"⟩)
        (6 * msPerDay)
        ⟨none, false, false,
          some (some ⟨"garbage", ⟨true, none, none, false, none⟩, 0⟩)⟩).license =
      some ⟨true, none, none, false, none⟩ := by
  rfl

/-- C5 (amended): on application start with a cached record at most 7 days
old, the remembered outcome alone is the baseline: `loadSavedLicense` performs
no verification of the saved token (its result is independent of what the
`verify_license` command would return) and sets the saved status directly;
only a record strictly older than 7 days triggers `verifyLicense`. -/
theorem c5_startup_amended (inv inv2 : String → Option LicenseStatus)
    (now : Nat) (s : LicenseState) (data : SavedLicense)
    (hst : s.storage = some (some data))
    (hfresh : now - data.verified_at ≤ 7 * msPerDay) :
    loadSavedLicense inv now s = loadSavedLicense inv2 now s ∧
    (loadSavedLicense inv now s).license = some data.status := by
  have hc : ¬ 7 * msPerDay < now - data.verified_at := by omega
  simp [loadSavedLicense, hst, hc]

theorem c5_startup_amended_witness :
    loadSavedLicense (fun _ => some errorStatus) (6 * msPerDay)
        ⟨none, false, false,
          some (some ⟨"tok", ⟨true, none, none, false, none⟩, 100⟩)⟩ =
      loadSavedLicense (fun _ => none) (6 * msPerDay)
        ⟨none, false, false,
          some (some ⟨"tok", ⟨true, none, none, false, none⟩, 100⟩)⟩ ∧
    (loadSavedLicense (fun _ => some errorStatus) (6 * msPerDay)
        ⟨none, false, false,
          some (some ⟨"tok", ⟨true, none, none, false, none⟩, 100⟩)⟩).license =
      some ⟨true, none, none, false, none⟩ :=
  c5_startup_amended (fun _ => some errorStatus) (fun _ => none) (6 * msPerDay)
    _ _ rfl (by decide)

/-- C9: whenever the `verify_license` command resolves (does not throw),
`verifyLicense` sets `showLicensePrompt` to `false` — also when the returned
status is not valid, so an invalid key dismisses the activation dialog. -/
theorem c9_prompt_hidden_on_resolve (inv : String → Option LicenseStatus)
    (now : Nat) (token : String) (s : LicenseState) (st : LicenseStatus)
    (h : inv token = some st) :
    (verifyLicense inv now token s).1.showLicensePrompt = false ∧
    (verifyLicense inv now token s).1.license = some st := by
  simp [verifyLicense, h]

theorem c9_prompt_hidden_on_resolve_witness :
    (verifyLicense
        (fun _ => some ⟨false, none, none, false, some "Invalid license key"⟩)
        0 "badkey" ⟨none, false, true, none⟩).1.showLicensePrompt = false ∧
    (verifyLicense
        (fun _ => some ⟨false, none, none, false, some "Invalid license key"⟩)
        0 "badkey" ⟨none, false, true, none⟩).1.license =
      some ⟨false, none, none, false, some "Invalid license key"⟩ :=
  c9_prompt_hidden_on_resolve
    (fun _ => some ⟨false, none, none, false, some "Invalid license key"⟩)
    0 "badkey" ⟨none, false, true, none⟩ _ rfl

/-- C10: a present-but-unparseable saved record leaves the state unchanged
(license stays `null`, the prompt is not shown); a missing record shows the
prompt; and starting from a hidden prompt, `loadSavedLicense` can only have
shown the prompt because no saved record existed. -/
theorem c10_corrupt_record (inv : String → Option LicenseStatus) (now : Nat)
    (s : LicenseState) :
    (s.storage = some none → loadSavedLicense inv now s = s) ∧
    (s.storage = none →
      loadSavedLicense inv now s = { s with showLicensePrompt := true }) ∧
    (s.showLicensePrompt = false →
      (loadSavedLicense inv now s).showLicensePrompt = true →
        s.storage = none) := by
  refine ⟨?_, ?_, ?_⟩
  · intro h
    simp [loadSavedLicense, h]
  · intro h
    simp [loadSavedLicense, h]
  · intro h1 h2
    unfold loadSavedLicense at h2
    rcases hstore : s.storage with - | hd
    · rfl
    · rcases hd with - | data
      · rw [hstore] at h2
        simp only at h2
        exact absurd h2 (by simp [h1])
      · rw [hstore] at h2
        simp only at h2
        split at h2
        · rcases hinv : inv data.token with - | st2
          · simp [verifyLicense, hinv, h1] at h2
          · simp [verifyLicense, hinv] at h2
        · simp [h1] at h2

theorem c10_corrupt_record_witness :
    loadSavedLicense (fun _ => some errorStatus) 7
        ⟨none, false, false, some none⟩ =
      ⟨none, false, false, some none⟩ :=
  (c10_corrupt_record (fun _ => some errorStatus) 7
    ⟨none, false, false, some none⟩).1 rfl

/-- C6: the verification operation is a total function into
`VerificationOutcome` — the empty string, a token missing the `.` delimiter,
and a token with non-base64 content each yield `Malformed` (for every payload
parser, signature checker, product id and clock), and the client wrapper
`verifyLicense` likewise returns a status value (the catch-all `errorStatus`)
instead of propagating a thrown command. -/
theorem c6_verify_never_raises (pp : List Nat → Option LicensePayload)
    (sv : List Nat → List Nat → Bool) (prod : String) (timeOf : String → Nat)
    (now : Nat) :
    verify pp sv prod timeOf now "" = .Malformed ∧
    verify pp sv prod timeOf now "abc" = .Malformed ∧
    verify pp sv prod timeOf now "ab$.cd" = .Malformed ∧
    (∀ (nw : Nat) (tok : String) (s : LicenseState),
      (verifyLicense (fun _ => none) nw tok s).2 = errorStatus) :=
  ⟨rfl, rfl, rfl, fun _ _ _ => rfl⟩

/-- C7: decoding an encoded token is an exact round trip —
`decode(encode(p, s)) = (canonical(p), s)` — and the `.` delimiter cannot occur
inside either base64url-encoded half. -/
theorem c7_decode_encode_roundtrip (p : LicensePayload) (s : List Nat)
    (hs : ∀ b ∈ s, b < 256) :
    tokenDecode (encodeToken p s) = some (canonicalJson p, s) ∧
    '.' ∉ b64EncodeBytes (canonicalJson p) ∧ '.' ∉ b64EncodeBytes s :=
  ⟨tokenDecode_tokenEncode _ _ (canonicalJson_lt p) hs,
    b64EncodeBytes_no_dot _ (canonicalJson_lt p), b64EncodeBytes_no_dot _ hs⟩

theorem c7_decode_encode_roundtrip_witness :
    tokenDecode
        (encodeToken
          ⟨"user@example.com", "localendar-mvp", "pro", "2025-01-15T00:00:00Z",
            some "2026-01-15T00:00:00Z"⟩ [1, 255, 0]) =
      some
        (canonicalJson
          ⟨"user@example.com", "localendar-mvp", "pro", "2025-01-15T00:00:00Z",
            some "2026-01-15T00:00:00Z"⟩, [1, 255, 0]) ∧
    '.' ∉
      b64EncodeBytes
        (canonicalJson
          ⟨"user@example.com", "localendar-mvp", "pro", "2025-01-15T00:00:00Z",
            some "2026-01-15T00:00:00Z"⟩) ∧
    '.' ∉ b64EncodeBytes [1, 255, 0] :=
  c7_decode_encode_roundtrip _ _ (by decide)

/-- C8: issuance through the webhook ingestor is idempotent per `saleId`: a
second `handlePurchaseEvent` call with the same `saleId` — at a different
wall-clock time — returns the token produced by the first call (instead of
minting a new one with a new `issuedAt`) and leaves the deduplication state
unchanged. -/
theorem c8_idempotent_issuance (sign : List Nat → List Nat) (fmt : Nat → String)
    (productId plan : String) (t1 t2 : Nat) (saleId identity : String)
    (st : IngestorState) (h : lookupSale st.processed saleId = none) :
    (handlePurchaseEvent sign fmt productId plan t2 saleId identity
        (handlePurchaseEvent sign fmt productId plan t1 saleId identity st).1).2 =
      (handlePurchaseEvent sign fmt productId plan t1 saleId identity st).2 ∧
    (handlePurchaseEvent sign fmt productId plan t2 saleId identity
        (handlePurchaseEvent sign fmt productId plan t1 saleId identity st).1).1 =
      (handlePurchaseEvent sign fmt productId plan t1 saleId identity st).1 := by
  simp [handlePurchaseEvent, h, lookupSale]

theorem c8_idempotent_issuance_witness :
    (handlePurchaseEvent (fun l => l) (fun n => toString n) "localendar-mvp"
        "pro" 999 "abc123" "buyer@example.com"
        (handlePurchaseEvent (fun l => l) (fun n => toString n) "localendar-mvp"
          "pro" 0 "abc123" "buyer@example.com" ⟨[]⟩).1).2 =
      (handlePurchaseEvent (fun l => l) (fun n => toString n) "localendar-mvp"
        "pro" 0 "abc123" "buyer@example.com" ⟨[]⟩).2 ∧
    (handlePurchaseEvent (fun l => l) (fun n => toString n) "localendar-mvp"
        "pro" 999 "abc123" "buyer@example.com"
        (handlePurchaseEvent (fun l => l) (fun n => toString n) "localendar-mvp"
          "pro" 0 "abc123" "buyer@example.com" ⟨[]⟩).1).1 =
      (handlePurchaseEvent (fun l => l) (fun n => toString n) "localendar-mvp"
        "pro" 0 "abc123" "buyer@example.com" ⟨[]⟩).1 :=
  c8_idempotent_issuance (fun l => l) (fun n => toString n) "localendar-mvp"
    "pro" 0 999 "abc123" "buyer@example.com" ⟨[]⟩ rfl
